import Mathlib

/-!
Shallow embedding of the FAVISA staging-to-canonical migration pipeline
(`python/main.py` together with `python/db_connection.py`), and theorems
about its field normalizers, staging reader, migration engine and
orchestrator.  Machine strings are Lean `String`s, integer columns are
`Int`, nullable columns are `Option`, and decimal amounts are modelled as
integers (no claim below depends on fractional values).  The relational
store is modelled as explicit lists of rows threaded through the
functions, and a constraint-violation oracle `fails : ContribRow → Bool`
stands for the destination's own uniqueness/FK checks.
-/

namespace Favisa

/-- Model of Python `str.strip()`: drop whitespace from both ends. -/
def pyStrip (s : String) : String :=
  String.mk (((s.data.dropWhile Char.isWhitespace).reverse.dropWhile Char.isWhitespace).reverse)

/-- Model of Python `str.upper()` on the ASCII data at hand. -/
def pyUpper (s : String) : String :=
  String.mk (s.data.map Char.toUpper)

/-- Digits-only parse of a nonempty digit list, used by `pyInt`. -/
def digitsToNat? (ds : List Char) : Option Nat :=
  if ds = [] then none
  else if ds.all Char.isDigit then
    some (ds.foldl (fun n c => n * 10 + (c.toNat - ('0').toNat)) 0)
  else none

/-- Model of Python `int(str)`: strip, optional sign, one or more digits;
anything else raises (here: `none`). -/
def pyInt (s : String) : Option Int :=
  match (pyStrip s).data with
  | '+' :: ds => (digitsToNat? ds).map Int.ofNat
  | '-' :: ds => (digitsToNat? ds).map (fun n => -(n : Int))
  | ds => (digitsToNat? ds).map Int.ofNat

/-- Value of a digit list read in base 10 (empty reads as 0, for `".5"`). -/
def natOfDigits (ds : List Char) : Nat :=
  ds.foldl (fun n c => n * 10 + (c.toNat - ('0').toNat)) 0

/-- Model of Python `float(str)` restricted to sign/digits/decimal-point
inputs, truncated to its integer part (decimal amounts are modelled as
integers; no claim depends on the fractional part). -/
def pyFloatInt (s : String) : Option Int :=
  let core : List Char → Option Nat := fun ds =>
    let intPart := ds.takeWhile Char.isDigit
    match ds.dropWhile Char.isDigit with
    | [] => if intPart = [] then none else some (natOfDigits intPart)
    | '.' :: frac =>
        if frac.all Char.isDigit && !(intPart = [] && frac = []) then
          some (natOfDigits intPart)
        else none
    | _ => none
  match (pyStrip s).data with
  | '+' :: ds => (core ds).map Int.ofNat
  | '-' :: ds => (core ds).map (fun n => -(n : Int))
  | ds => (core ds).map Int.ofNat

/-! ### Field normalizers (`main.py`, `limpiar_*`) -/

/-- `limpiar_estado`: normalizes `ddp_estado` to the ESTADO_TRIBUTARIO
catalog codes; the corrupted `2ACTIVO` becomes `ACTIVO`. -/
def limpiar_estado (valor : String) : String :=
  if valor = "" then "ND"
  else if pyUpper (pyStrip valor) = "2ACTIVO" then "ACTIVO"
  else if pyUpper (pyStrip valor) ∈ ["ACTIVO", "10", "11", "3", "2", "1", "12", "INACTIVO"] then
    pyUpper (pyStrip valor)
  else "ND"

/-- `limpiar_condicion`: normalizes `ddp_flag22`; `2HABIDO` becomes
`HABIDO`, numeric codes 1..12 pass through. -/
def limpiar_condicion (valor : String) : String :=
  if valor = "" then "ND"
  else if pyUpper (pyStrip valor) = "2HABIDO" then "HABIDO"
  else if pyUpper (pyStrip valor) ∈
      ["HABIDO", "1", "2", "3", "4", "5", "6", "7", "8", "9", "10", "11", "12"] then
    pyUpper (pyStrip valor)
  else "ND"

/-- `limpiar_tipo_empresa`: exact catalog codes pass through, otherwise a
leading letter A..E is kept, otherwise `"-"`. -/
def limpiar_tipo_empresa (valor : String) : String :=
  if valor = "" then "-"
  else if pyUpper (pyStrip valor) ∈ ["A", "B", "C", "D", "E", "CE", "-"] then
    pyUpper (pyStrip valor)
  else
    match (pyUpper (pyStrip valor)).data with
    | c :: _ => if c ∈ ['A', 'B', 'C', 'D', 'E'] then String.mk [c] else "-"
    | [] => "-"

/-- `limpiar_sexo`: only `HOMBRE` and `MUJER` pass through. -/
def limpiar_sexo (valor : String) : String :=
  if valor = "" then "ND"
  else if pyUpper (pyStrip valor) ∈ ["HOMBRE", "MUJER"] then pyUpper (pyStrip valor)
  else "ND"

/-- `limpiar_tamano`: size codes C, M, G, B pass through, default `C`. -/
def limpiar_tamano (valor : String) : String :=
  if valor = "" then "C"
  else if pyUpper (pyStrip valor) ∈ ["C", "M", "G", "B"] then pyUpper (pyStrip valor)
  else "C"

/-- C4: every field normalizer is total and lands in its declared closed
code set; empty input maps to the designated undetermined/default code
(`"ND"`, `"-"`, or the default size class `"C"`).  Totality (no exception)
is witnessed by each normalizer being a total Lean function on `String`. -/
theorem normalizadores_totales (s : String) :
    limpiar_estado s ∈ ["ACTIVO", "INACTIVO", "1", "2", "3", "10", "11", "12", "ND"]
    ∧ limpiar_condicion s ∈
        ["HABIDO", "1", "2", "3", "4", "5", "6", "7", "8", "9", "10", "11", "12", "ND"]
    ∧ limpiar_tipo_empresa s ∈ ["A", "B", "C", "D", "E", "CE", "-"]
    ∧ limpiar_sexo s ∈ ["HOMBRE", "MUJER", "ND"]
    ∧ limpiar_tamano s ∈ ["C", "M", "G", "B"]
    ∧ limpiar_estado "" = "ND" ∧ limpiar_condicion "" = "ND"
    ∧ limpiar_tipo_empresa "" = "-" ∧ limpiar_sexo "" = "ND"
    ∧ limpiar_tamano "" = "C" := by
  refine ⟨?_, ?_, ?_, ?_, ?_, by decide, by decide, by decide, by decide, by decide⟩
  · unfold limpiar_estado
    split_ifs with h1 h2 h3
    · simp
    · simp
    · simp only [List.mem_cons, List.not_mem_nil, or_false] at h3 ⊢
      tauto
    · simp
  · unfold limpiar_condicion
    split_ifs with h1 h2 h3
    · simp
    · simp
    · simp only [List.mem_cons, List.not_mem_nil, or_false] at h3 ⊢
      tauto
    · simp
  · unfold limpiar_tipo_empresa
    split
    · simp
    · split
      · next h => exact h
      · split
        · split
          · rename_i hc
            simp only [List.mem_cons, List.not_mem_nil, or_false] at hc
            rcases hc with h | h | h | h | h <;> rw [h] <;> decide
          · simp
        · simp
  · unfold limpiar_sexo
    split_ifs with h1 h2
    · simp
    · simp only [List.mem_cons, List.not_mem_nil, or_false] at h2 ⊢
      tauto
    · simp
  · unfold limpiar_tamano
    split_ifs with h1 h2
    · simp
    · simp only [List.mem_cons, List.not_mem_nil, or_false] at h2 ⊢
      tauto
    · simp

/-- C7: the company-type normalizer passes the exact catalog codes through
on the trimmed upper-cased input, truncates an input whose first character
is one of A..E to that character, and maps everything else to `"-"`; in
particular `"B9"` normalizes to `"B"` and `"ZZ"` to `"-"`. -/
theorem limpiar_tipo_empresa_spec (s : String) :
    (pyUpper (pyStrip s) ∈ ["A", "B", "C", "D", "E", "CE", "-"] →
      limpiar_tipo_empresa s = pyUpper (pyStrip s))
    ∧ (∀ c cs, pyUpper (pyStrip s) ∉ ["A", "B", "C", "D", "E", "CE", "-"] →
        (pyUpper (pyStrip s)).data = c :: cs → c ∈ ['A', 'B', 'C', 'D', 'E'] →
        limpiar_tipo_empresa s = String.mk [c])
    ∧ (pyUpper (pyStrip s) ∉ ["A", "B", "C", "D", "E", "CE", "-"] →
        (∀ c, (pyUpper (pyStrip s)).data.head? = some c → c ∉ ['A', 'B', 'C', 'D', 'E']) →
        limpiar_tipo_empresa s = "-")
    ∧ limpiar_tipo_empresa "B9" = "B" ∧ limpiar_tipo_empresa "ZZ" = "-" := by
  refine ⟨?_, ?_, ?_, by decide, by decide⟩
  · intro hmem
    by_cases hs : s = ""
    · subst hs
      exact absurd hmem (by decide)
    · simp only [limpiar_tipo_empresa, hs, if_false, if_pos hmem]
  · intro c cs hnot hdata hc
    by_cases hs : s = ""
    · subst hs
      simp [pyUpper, pyStrip] at hdata
    · simp only [limpiar_tipo_empresa, hs, if_false, if_neg hnot]
      rw [hdata]
      simp [hc]
  · intro hnot hhead
    by_cases hs : s = ""
    · subst hs
      decide
    · simp only [limpiar_tipo_empresa, hs, if_false, if_neg hnot]
      cases hd : (pyUpper (pyStrip s)).data with
      | nil => simp
      | cons c cs =>
          have := hhead c (by simp [hd])
          simp [this]

/-- C7 witness: the pass-through, truncation and fallback branches at
concrete inputs. -/
theorem limpiar_tipo_empresa_spec_witness :
    limpiar_tipo_empresa " ce " = "CE" ∧ limpiar_tipo_empresa "b9" = String.mk ['B']
    ∧ limpiar_tipo_empresa "zz" = "-" := by
  refine ⟨?_, ?_, ?_⟩
  · have h := (limpiar_tipo_empresa_spec " ce ").1 (by decide)
    simpa using h
  · exact (limpiar_tipo_empresa_spec "b9").2.1 'B' ['9'] (by decide) (by decide) (by decide)
  · exact (limpiar_tipo_empresa_spec "zz").2.2.1 (by decide) (by decide)

/-- C8: the tax-status normalizer, on the trimmed upper-cased input, maps
the corrupted `2ACTIVO` to `ACTIVO`, passes through `ACTIVO`, `INACTIVO`
and the numeric codes 1, 2, 3, 10, 11, 12, and maps everything else
(including the empty string) to `ND`. -/
theorem limpiar_estado_spec (s : String) :
    (pyUpper (pyStrip s) = "2ACTIVO" → limpiar_estado s = "ACTIVO")
    ∧ (pyUpper (pyStrip s) ∈ ["ACTIVO", "INACTIVO", "1", "2", "3", "10", "11", "12"] →
        limpiar_estado s = pyUpper (pyStrip s))
    ∧ (pyUpper (pyStrip s) ≠ "2ACTIVO" →
        pyUpper (pyStrip s) ∉ ["ACTIVO", "INACTIVO", "1", "2", "3", "10", "11", "12"] →
        limpiar_estado s = "ND") := by
  refine ⟨?_, ?_, ?_⟩
  · intro h2
    by_cases hs : s = ""
    · subst hs
      simp [pyUpper, pyStrip] at h2
    · simp [limpiar_estado, hs, h2]
  · intro hmem
    by_cases hs : s = ""
    · subst hs
      simp [pyUpper, pyStrip] at hmem
    · have hne : pyUpper (pyStrip s) ≠ "2ACTIVO" := by
        intro h
        rw [h] at hmem
        simp at hmem
      have hmem2 : pyUpper (pyStrip s) ∈
          ["ACTIVO", "10", "11", "3", "2", "1", "12", "INACTIVO"] := by
        simp only [List.mem_cons, List.not_mem_nil, or_false] at hmem ⊢
        tauto
      simp only [limpiar_estado, hs, if_false, if_neg hne, if_pos hmem2]
  · intro hne hnot
    by_cases hs : s = ""
    · subst hs
      decide
    · have hnot2 : pyUpper (pyStrip s) ∉
          ["ACTIVO", "10", "11", "3", "2", "1", "12", "INACTIVO"] := by
        intro h
        apply hnot
        simp only [List.mem_cons, List.not_mem_nil, or_false] at h ⊢
        tauto
      simp only [limpiar_estado, hs, if_false, if_neg hne, if_neg hnot2]

/-- C8 witness: the corruption fix, the pass-through and the default at
concrete inputs. -/
theorem limpiar_estado_spec_witness :
    limpiar_estado "2activo" = "ACTIVO" ∧ limpiar_estado " inactivo " = "INACTIVO"
    ∧ limpiar_estado "garbage" = "ND" := by
  refine ⟨(limpiar_estado_spec "2activo").1 (by decide), ?_, ?_⟩
  · have h := (limpiar_estado_spec " inactivo ").2.1 (by decide)
    simpa using h
  · exact (limpiar_estado_spec "garbage").2.2 (by decide) (by decide)

/-! ### Data model -/

/-- One raw CSV row, as the `csv.DictReader` of `cargar_csv_a_staging`
hands it over: all columns are strings. -/
structure RawRow where
  ddp_numruc : String
  ddp_ciiu : String
  ddp_tpoemp : String
  ddp_tamano : String
  ddp_ubigeo : String
  ddp_estado : String
  ddp_flag22 : String
  dds_sexo : String
  dds_edad : String
  deuda : String
  condicion : String
deriving DecidableEq

/-- One row of `TMP_DataOZ_Staging` after type coercion; nullable columns
are `Option`.  Decimal `deuda` is modelled as an integer. -/
structure StagingRow where
  ruc : Int
  ciiu : Option String
  tpoemp : Option String
  tamano : Option String
  ubigeo : Option String
  estado : Option String
  flag22 : Option String
  sexo : Option String
  edad : Option Int
  deuda : Option Int
  condicion : Int
deriving DecidableEq

/-- `BATCH_SIZE` from `main.py`. -/
def BATCH_SIZE : Nat := 500

/-! ### Staging Reader (`cargar_csv_a_staging`) -/

/-- Model of `int(x) if x.strip() else None`: blank is null, otherwise the
integer coercion must succeed (a failure is the raised `ValueError`). -/
def coerceIntOpt (s : String) : Except Unit (Option Int) :=
  if pyStrip s = "" then .ok none
  else match pyInt s with
    | some n => .ok (some n)
    | none => .error ()

/-- Model of `float(x) if x.strip() else 0.0`. -/
def coerceFloatZero (s : String) : Except Unit Int :=
  if pyStrip s = "" then .ok 0
  else match pyFloatInt s with
    | some n => .ok n
    | none => .error ()

/-- Model of `int(x) if x.strip() else 0`. -/
def coerceIntZero (s : String) : Except Unit Int :=
  if pyStrip s = "" then .ok 0
  else match pyInt s with
    | some n => .ok n
    | none => .error ()

/-- Model of `row[f].strip() or None`: blank string columns become null. -/
def strOrNone (s : String) : Option String :=
  if pyStrip s = "" then none else some (pyStrip s)

/-- Whether a modelled coercion succeeded (no `ValueError`). -/
def coercionOk {α : Type} : Except Unit α → Bool
  | .ok _ => true
  | .error _ => false

/-- Outcome of one iteration of the staging-load loop: the caught
`ValueError` (row counted in `filas_error`), the silent `continue` on a
null `ruc`, or a staging record. -/
inductive FilaResult where
  | error : FilaResult
  | saltada : FilaResult
  | ok : StagingRow → FilaResult
deriving DecidableEq

/-- One iteration of the loop body of `cargar_csv_a_staging`: coerce
`ddp_numruc`, `dds_edad`, `deuda`, `condicion` in source order, then skip
the row when the coerced `ruc` is null, else build the staging record. -/
def procesarFila (r : RawRow) : FilaResult :=
  match coerceIntOpt r.ddp_numruc with
  | .error _ => .error
  | .ok rucO =>
    match coerceIntOpt r.dds_edad with
    | .error _ => .error
    | .ok edad =>
      match coerceFloatZero r.deuda with
      | .error _ => .error
      | .ok deudaV =>
        match coerceIntZero r.condicion with
        | .error _ => .error
        | .ok cond =>
          match rucO with
          | none => .saltada
          | some ruc =>
              .ok { ruc := ruc, ciiu := strOrNone r.ddp_ciiu,
                    tpoemp := strOrNone r.ddp_tpoemp, tamano := strOrNone r.ddp_tamano,
                    ubigeo := strOrNone r.ddp_ubigeo, estado := strOrNone r.ddp_estado,
                    flag22 := strOrNone r.ddp_flag22, sexo := strOrNone r.dds_sexo,
                    edad := edad, deuda := some deudaV, condicion := cond }

/-- The staging record a raw row contributes, if any. -/
def stagingDe (r : RawRow) : Option StagingRow :=
  match procesarFila r with
  | .ok s => some s
  | _ => none

/-- Whether a raw row raises during coercion (counted in `filas_error`). -/
def esErrorFila (r : RawRow) : Bool :=
  match procesarFila r with
  | .error => true
  | _ => false

/-- State of the staging load: counters, the pending batch, and the
content of `TMP_DataOZ_Staging`. -/
structure CargaState where
  filasOk : Nat
  filasError : Nat
  batch : List StagingRow
  staging : List StagingRow
deriving DecidableEq

/-- The staging table is cleared before loading (`DELETE FROM
TMP_DataOZ_Staging`), so the load starts from an empty state. -/
def cargaInicial : CargaState := ⟨0, 0, [], []⟩

/-- A staging batch commit (`executemany` + `commit`): staging writes have
no row-level recovery, the whole batch lands. -/
def volcarLoteStaging (st : CargaState) : CargaState :=
  { st with staging := st.staging ++ st.batch,
            filasOk := st.filasOk + st.batch.length,
            batch := [] }

/-- One raw row of the staging-load loop. -/
def cargarPaso (st : CargaState) (r : RawRow) : CargaState :=
  match procesarFila r with
  | .error => { st with filasError := st.filasError + 1 }
  | .saltada => st
  | .ok s =>
      let st' := { st with batch := st.batch ++ [s] }
      if BATCH_SIZE ≤ st'.batch.length then volcarLoteStaging st' else st'

/-- The staging-load loop over all raw rows. -/
def cargarBucle : CargaState → List RawRow → CargaState
  | st, [] => st
  | st, r :: rs => cargarBucle (cargarPaso st r) rs

/-- `cargar_csv_a_staging`: process every raw row, then insert the final
partial batch.  The Python function returns `filas_ok`; the whole final
state is kept so the counters and table content can be stated. -/
def cargar_csv_a_staging (rows : List RawRow) : CargaState :=
  if (cargarBucle cargaInicial rows).batch.isEmpty then cargarBucle cargaInicial rows
  else volcarLoteStaging (cargarBucle cargaInicial rows)

theorem cargarPaso_inv (st : CargaState) (r : RawRow) :
    (cargarPaso st r).staging ++ (cargarPaso st r).batch
        = st.staging ++ st.batch ++ (stagingDe r).toList
    ∧ (cargarPaso st r).filasOk + (cargarPaso st r).batch.length
        = st.filasOk + st.batch.length + (stagingDe r).toList.length
    ∧ (cargarPaso st r).filasError
        = st.filasError + (if esErrorFila r then 1 else 0) := by
  unfold cargarPaso stagingDe esErrorFila
  cases procesarFila r with
  | error => simp
  | saltada => simp
  | ok s =>
      simp only
      split
      · simp [volcarLoteStaging]
        omega
      · simp
        omega

theorem cargarBucle_inv (rows : List RawRow) : ∀ st : CargaState,
    (cargarBucle st rows).staging ++ (cargarBucle st rows).batch
        = st.staging ++ st.batch ++ rows.filterMap stagingDe
    ∧ (cargarBucle st rows).filasOk + (cargarBucle st rows).batch.length
        = st.filasOk + st.batch.length + (rows.filterMap stagingDe).length
    ∧ (cargarBucle st rows).filasError = st.filasError + rows.countP esErrorFila := by
  induction rows with
  | nil => intro st; simp [cargarBucle]
  | cons r rs ih =>
      intro st
      obtain ⟨h1, h2, h3⟩ := cargarPaso_inv st r
      obtain ⟨g1, g2, g3⟩ := ih (cargarPaso st r)
      refine ⟨?_, ?_, ?_⟩
      · rw [show cargarBucle st (r :: rs) = cargarBucle (cargarPaso st r) rs from rfl,
            g1, h1, List.filterMap_cons]
        cases hs : stagingDe r <;> simp [hs]
      · rw [show cargarBucle st (r :: rs) = cargarBucle (cargarPaso st r) rs from rfl,
            g2, h2, List.filterMap_cons]
        cases hs : stagingDe r <;> simp [hs] <;> omega
      · rw [show cargarBucle st (r :: rs) = cargarBucle (cargarPaso st r) rs from rfl,
            g3, h3, List.countP_cons]
        by_cases he : esErrorFila r <;> simp [he] <;> omega

/-- C6 (amended): a raw row whose `business_id` fails integer coercion is
dropped and counted in the error tally; a raw row whose `business_id` is
blank (and whose numeric fields coerce) is dropped silently, without being
counted.  In both cases no staging record is created, the load continues,
and the final counters and staging content are exactly the per-row
outcomes accumulated over the whole extract. -/
theorem cargar_csv_a_staging_spec (rows : List RawRow) :
    (cargar_csv_a_staging rows).staging = rows.filterMap stagingDe
    ∧ (cargar_csv_a_staging rows).filasOk = (rows.filterMap stagingDe).length
    ∧ (cargar_csv_a_staging rows).filasError = rows.countP esErrorFila
    ∧ (∀ r : RawRow, pyStrip r.ddp_numruc ≠ "" → pyInt r.ddp_numruc = none →
        procesarFila r = .error)
    ∧ (∀ r : RawRow, pyStrip r.ddp_numruc = "" →
        coercionOk (coerceIntOpt r.dds_edad) = true →
        coercionOk (coerceFloatZero r.deuda) = true →
        coercionOk (coerceIntZero r.condicion) = true → procesarFila r = .saltada) := by
  obtain ⟨h1, h2, h3⟩ := cargarBucle_inv rows cargaInicial
  have hfin :
      (cargar_csv_a_staging rows).staging = (cargarBucle cargaInicial rows).staging
          ++ (cargarBucle cargaInicial rows).batch
      ∧ (cargar_csv_a_staging rows).filasOk = (cargarBucle cargaInicial rows).filasOk
          + (cargarBucle cargaInicial rows).batch.length
      ∧ (cargar_csv_a_staging rows).filasError
          = (cargarBucle cargaInicial rows).filasError := by
    unfold cargar_csv_a_staging
    split
    · next hb =>
        rw [List.isEmpty_iff] at hb
        simp [hb]
    · simp [volcarLoteStaging]
  refine ⟨?_, ?_, ?_, ?_, ?_⟩
  · rw [hfin.1, h1]; simp [cargaInicial]
  · rw [hfin.2.1, h2]
    simp [cargaInicial]
  · rw [hfin.2.2, h3]; simp [cargaInicial]
  · intro r hne hnone
    unfold procesarFila coerceIntOpt
    simp [hne, hnone]
  · intro r hblank hedad hdeuda hcond
    unfold procesarFila
    rw [show coerceIntOpt r.ddp_numruc = .ok none by simp [coerceIntOpt, hblank]]
    rcases he : coerceIntOpt r.dds_edad with _ | v
    · rw [he] at hedad; simp [coercionOk] at hedad
    · rcases hd : coerceFloatZero r.deuda with _ | dv
      · rw [hd] at hdeuda; simp [coercionOk] at hdeuda
      · rcases hc : coerceIntZero r.condicion with _ | cv
        · rw [hc] at hcond; simp [coercionOk] at hcond
        · rfl

/-- A raw row with a blank `ddp_numruc` and well-formed numeric fields. -/
def filaRucBlanco : RawRow :=
  { ddp_numruc := "", ddp_ciiu := "12345", ddp_tpoemp := "A", ddp_tamano := "C",
    ddp_ubigeo := "CHIMBOTE", ddp_estado := "ACTIVO", ddp_flag22 := "HABIDO",
    dds_sexo := "HOMBRE", dds_edad := "40", deuda := "10.5", condicion := "1" }

/-- A raw row whose `ddp_numruc` fails integer coercion. -/
def filaRucMala : RawRow :=
  { ddp_numruc := "ABC", ddp_ciiu := "12345", ddp_tpoemp := "A", ddp_tamano := "C",
    ddp_ubigeo := "CHIMBOTE", ddp_estado := "ACTIVO", ddp_flag22 := "HABIDO",
    dds_sexo := "HOMBRE", dds_edad := "40", deuda := "10.5", condicion := "1" }

/-- C6 counterexample: a staging row with a blank `business_id` is dropped
(no staging record) but the dropped-row tally stays 0 — the claim that
such a row is counted in the tally fails on this input. -/
theorem cargar_csv_ruc_blanco_no_contado :
    (cargar_csv_a_staging [filaRucBlanco]).staging = []
    ∧ (cargar_csv_a_staging [filaRucBlanco]).filasError = 0
    ∧ (cargar_csv_a_staging [filaRucBlanco]).filasOk = 0 := by
  decide

/-- C6 witness: the amended per-row outcomes at concrete rows. -/
theorem cargar_csv_a_staging_spec_witness :
    procesarFila filaRucMala = .error ∧ procesarFila filaRucBlanco = .saltada := by
  refine ⟨(cargar_csv_a_staging_spec []).2.2.2.1 filaRucMala (by decide) (by decide), ?_⟩
  exact (cargar_csv_a_staging_spec []).2.2.2.2 filaRucBlanco (by decide) (by decide)
    (by decide) (by decide)

/-! ### Migration Engine (`migrar_staging_a_contribuyente`) -/

/-- One row of `CONTRIBUYENTE`, shaped as the insert tuple of
`migrar_staging_a_contribuyente`: raw `ciiu`/`ubigeo` pass through, the
five normalizable fields are cleaned, and the original `flag22` is kept. -/
structure ContribRow where
  ruc : Int
  id_ciiu : Option String
  id_tipo_empresa : String
  id_tamano : String
  id_ubicacion : Option String
  id_estado : String
  id_condicion : String
  sexo : String
  edad : Option Int
  deuda : Int
  flag22 : Option String
deriving DecidableEq

/-- Model of `str(x) if x else ''` on a nullable string column. -/
def strOVacio : Option String → String
  | none => ""
  | some s => s

/-- The cleaned tuple appended to the migration batch for one staging row:
normalize the five fields, clamp negative debt to zero, keep the raw
`ciiu`, `ubigeo` and `flag22`. -/
def registroDe (r : StagingRow) : ContribRow :=
  { ruc := r.ruc,
    id_ciiu := r.ciiu,
    id_tipo_empresa := limpiar_tipo_empresa (strOVacio r.tpoemp),
    id_tamano := limpiar_tamano (strOVacio r.tamano),
    id_ubicacion := r.ubigeo,
    id_estado := limpiar_estado (strOVacio r.estado),
    id_condicion := limpiar_condicion (strOVacio r.flag22),
    sexo := limpiar_sexo (strOVacio r.sexo),
    edad := r.edad,
    deuda := match r.deuda with
      | none => 0
      | some d => if d < 0 then 0 else d,
    flag22 := r.flag22 }

/-- Migration state: the pending batch, the `insertados`/`descartados`
counters, the `ruc_set` dedup set and the `CONTRIBUYENTE` content. -/
structure MigState where
  batch : List ContribRow
  insertados : Nat
  descartados : Nat
  rucSet : List Int
  db : List ContribRow
deriving DecidableEq

/-- `DELETE FROM CONTRIBUYENTE` runs first, so migration starts empty. -/
def migInicial : MigState := ⟨[], 0, 0, [], []⟩

/-- One batch commit attempt: `executemany` succeeds only when the store
rejects no row of the batch; on failure the batch is rolled back and each
row is retried individually, counting successes as inserted and failures
as discarded. -/
def volcarLote (fails : ContribRow → Bool) (st : MigState) : MigState :=
  if st.batch.any fails then
    { st with db := st.db ++ st.batch.filter (fun r => !fails r),
              insertados := st.insertados + st.batch.countP (fun r => !fails r),
              descartados := st.descartados + st.batch.countP fails,
              batch := [] }
  else
    { st with db := st.db ++ st.batch,
              insertados := st.insertados + st.batch.length,
              batch := [] }

/-- One filtered staging row of the migration loop: duplicate `ruc`s are
discarded before insertion, fresh rows are cleaned, buffered, and the
batch is committed when it reaches `BATCH_SIZE`. -/
def migrarPaso (fails : ContribRow → Bool) (st : MigState) (r : StagingRow) : MigState :=
  if st.rucSet.contains r.ruc then { st with descartados := st.descartados + 1 }
  else
    let st' := { st with rucSet := r.ruc :: st.rucSet, batch := st.batch ++ [registroDe r] }
    if BATCH_SIZE ≤ st'.batch.length then volcarLote fails st' else st'

/-- The migration loop over all filtered staging rows. -/
def migrarBucle (fails : ContribRow → Bool) : MigState → List StagingRow → MigState
  | st, [] => st
  | st, r :: rs => migrarBucle fails (migrarPaso fails st r) rs

/-- The final partial batch (`if batch:` after the loop). -/
def migrarFin (fails : ContribRow → Bool) (st : MigState) : MigState :=
  if st.batch.isEmpty then st else volcarLote fails st

/-- The fixed synthetic record of the original script. -/
def registroEspecial : ContribRow :=
  { ruc := 611077, id_ciiu := some "75113", id_tipo_empresa := "A", id_tamano := "C",
    id_ubicacion := some "CHIMBOTE", id_estado := "ACTIVO", id_condicion := "HABIDO",
    sexo := "ND", edad := some 0, deuda := 0, flag22 := some "HABIDO" }

/-- `IF NOT EXISTS (ruc = 611077) INSERT ...`, inside try/except: an
insert rejected by the store is logged and ignored. -/
def agregarRegistroEspecial (fails : ContribRow → Bool) (db : List ContribRow) :
    List ContribRow :=
  if db.any (fun r => r.ruc == 611077) then db
  else if fails registroEspecial then db
  else db ++ [registroEspecial]

/-- Full effect of `migrar_staging_a_contribuyente` on the canonical store
and its counters: clear `CONTRIBUYENTE`, migrate the filtered staging rows
in batches with the row-by-row fallback, then ensure the synthetic record
(which touches neither counter). -/
def migrarEstado (fails : ContribRow → Bool) (rows : List StagingRow) : MigState :=
  { migrarFin fails (migrarBucle fails migInicial rows) with
    db := agregarRegistroEspecial fails
      (migrarFin fails (migrarBucle fails migInicial rows)).db }

/-- The Python function's result: `return insertados` (and nothing else). -/
def migrar_staging_a_contribuyente (fails : ContribRow → Bool)
    (rows : List StagingRow) : Nat :=
  (migrarEstado fails rows).insertados

/-- The no-constraint-violation oracle: every insert is accepted. -/
def sinFallos : ContribRow → Bool := fun _ => false

theorem countP_compl {α : Type} (p : α → Bool) (l : List α) :
    l.countP (fun a => !p a) + l.countP p = l.length := by
  induction l with
  | nil => simp
  | cons a l ih =>
      by_cases h : p a <;> simp [List.countP_cons, h] <;> omega

theorem volcarLote_cuenta (fails : ContribRow → Bool) (st : MigState) :
    (volcarLote fails st).insertados + (volcarLote fails st).descartados
        + (volcarLote fails st).batch.length
      = st.insertados + st.descartados + st.batch.length
    ∧ (volcarLote fails st).batch = []
    ∧ (volcarLote fails st).rucSet = st.rucSet := by
  unfold volcarLote
  have h := countP_compl fails st.batch
  split
  · refine ⟨?_, rfl, rfl⟩
    dsimp only
    simp only [List.length_nil]
    omega
  · refine ⟨?_, rfl, rfl⟩
    dsimp only
    simp only [List.length_nil]
    omega

theorem migrarPaso_cuenta (fails : ContribRow → Bool) (st : MigState) (r : StagingRow) :
    (migrarPaso fails st r).insertados + (migrarPaso fails st r).descartados
        + (migrarPaso fails st r).batch.length
      = st.insertados + st.descartados + st.batch.length + 1 := by
  unfold migrarPaso
  split
  · dsimp only; omega
  · dsimp only
    split
    · have h := (volcarLote_cuenta fails
        { st with rucSet := r.ruc :: st.rucSet, batch := st.batch ++ [registroDe r] }).1
      dsimp only at h
      simp only [List.length_append, List.length_cons, List.length_nil] at h
      omega
    · dsimp only
      simp only [List.length_append, List.length_cons, List.length_nil]
      omega

theorem migrarBucle_cuenta (fails : ContribRow → Bool) (rows : List StagingRow) :
    ∀ st : MigState,
      (migrarBucle fails st rows).insertados + (migrarBucle fails st rows).descartados
          + (migrarBucle fails st rows).batch.length
        = st.insertados + st.descartados + st.batch.length + rows.length := by
  induction rows with
  | nil => intro st; simp [migrarBucle]
  | cons r rs ih =>
      intro st
      have h1 := migrarPaso_cuenta fails st r
      have h2 := ih (migrarPaso fails st r)
      rw [show migrarBucle fails st (r :: rs) = migrarBucle fails (migrarPaso fails st r) rs
        from rfl, h2, h1]
      simp only [List.length_cons]
      omega

theorem migrarFin_cuenta (fails : ContribRow → Bool) (st : MigState) :
    (migrarFin fails st).insertados + (migrarFin fails st).descartados
        + (migrarFin fails st).batch.length
      = st.insertados + st.descartados + st.batch.length
    ∧ (migrarFin fails st).batch = [] := by
  unfold migrarFin
  split
  · next h =>
      rw [List.isEmpty_iff] at h
      simp [h]
  · exact ⟨(volcarLote_cuenta fails st).1, (volcarLote_cuenta fails st).2.1⟩

theorem migrar_cuenta_aux (fails : ContribRow → Bool) (rows : List StagingRow) :
    (migrarEstado fails rows).insertados + (migrarEstado fails rows).descartados
      = rows.length := by
  have hb := migrarBucle_cuenta fails rows migInicial
  have e1 : migInicial.insertados = 0 := rfl
  have e2 : migInicial.descartados = 0 := rfl
  have e3 : migInicial.batch = ([] : List ContribRow) := rfl
  rw [e1, e2, e3] at hb
  simp only [List.length_nil] at hb
  obtain ⟨hfin, hempty⟩ := migrarFin_cuenta fails (migrarBucle fails migInicial rows)
  unfold migrarEstado
  dsimp only
  rw [hempty] at hfin
  simp only [List.length_nil] at hfin
  omega

/-- C10: each filtered staging row is accounted for exactly once — for any
constraint oracle, the final inserted count plus the final discarded count
equals the number of filtered staging rows processed (the synthetic demo
record touches neither counter). -/
theorem migrar_cuenta_total (fails : ContribRow → Bool) (rows : List StagingRow) :
    (migrarEstado fails rows).insertados + (migrarEstado fails rows).descartados
      = rows.length :=
  migrar_cuenta_aux fails rows

/-! ### Deduplication (claim C3) -/

/-- First-occurrence deduplication by `ruc`, mirroring the `ruc_set`
screening of the migration loop. -/
def dedupFirstAux (seen : List Int) : List StagingRow → List StagingRow
  | [] => []
  | r :: rs =>
      if seen.contains r.ruc then dedupFirstAux seen rs
      else r :: dedupFirstAux (r.ruc :: seen) rs

/-- The subsequence of staging rows whose `ruc` was not seen before. -/
def dedupFirst (rows : List StagingRow) : List StagingRow :=
  dedupFirstAux [] rows

theorem volcarLote_sinFallos (st : MigState) :
    volcarLote sinFallos st
      = { st with db := st.db ++ st.batch,
                  insertados := st.insertados + st.batch.length, batch := [] } := by
  unfold volcarLote sinFallos
  simp

theorem migrarFin_sinFallos (st : MigState) :
    migrarFin sinFallos st
      = { st with db := st.db ++ st.batch,
                  insertados := st.insertados + st.batch.length, batch := [] } := by
  unfold migrarFin
  split
  · next h =>
      rw [List.isEmpty_iff] at h
      cases st with
      | mk b i d ru db => simp_all
  · exact volcarLote_sinFallos st

theorem migrarPaso_fresco_sinFallos (st : MigState) (r : StagingRow)
    (h : ¬st.rucSet.contains r.ruc = true) :
    (migrarPaso sinFallos st r).db ++ (migrarPaso sinFallos st r).batch
        = st.db ++ st.batch ++ [registroDe r]
    ∧ (migrarPaso sinFallos st r).insertados + (migrarPaso sinFallos st r).batch.length
        = st.insertados + st.batch.length + 1
    ∧ (migrarPaso sinFallos st r).descartados = st.descartados
    ∧ (migrarPaso sinFallos st r).rucSet = r.ruc :: st.rucSet := by
  unfold migrarPaso
  rw [if_neg h]
  dsimp only
  split
  · rw [volcarLote_sinFallos]
    dsimp only
    refine ⟨by simp, ?_, rfl, rfl⟩
    simp only [List.length_append, List.length_cons, List.length_nil]
    omega
  · refine ⟨by simp, ?_, rfl, rfl⟩
    simp only [List.length_append, List.length_cons, List.length_nil]
    omega

theorem migrarBucle_sinFallos (rows : List StagingRow) : ∀ st : MigState,
    (migrarBucle sinFallos st rows).db ++ (migrarBucle sinFallos st rows).batch
        = st.db ++ st.batch ++ (dedupFirstAux st.rucSet rows).map registroDe
    ∧ (migrarBucle sinFallos st rows).insertados
          + (migrarBucle sinFallos st rows).batch.length
        = st.insertados + st.batch.length + (dedupFirstAux st.rucSet rows).length
    ∧ (migrarBucle sinFallos st rows).descartados + (dedupFirstAux st.rucSet rows).length
        = st.descartados + rows.length := by
  induction rows with
  | nil => intro st; simp [migrarBucle, dedupFirstAux]
  | cons r rs ih =>
      intro st
      rw [show migrarBucle sinFallos st (r :: rs)
            = migrarBucle sinFallos (migrarPaso sinFallos st r) rs from rfl]
      by_cases h : st.rucSet.contains r.ruc = true
      · have hd : dedupFirstAux st.rucSet (r :: rs) = dedupFirstAux st.rucSet rs := by
          unfold dedupFirstAux
          rw [if_pos h]
          cases rs <;> rfl
        have hp : migrarPaso sinFallos st r = { st with descartados := st.descartados + 1 } := by
          unfold migrarPaso
          rw [if_pos h]
        rw [hd, hp]
        obtain ⟨g1, g2, g3⟩ := ih { st with descartados := st.descartados + 1 }
        dsimp only at g1 g2 g3
        refine ⟨g1, g2, ?_⟩
        rw [g3]
        simp only [List.length_cons]
        omega
      · have hd : dedupFirstAux st.rucSet (r :: rs)
            = r :: dedupFirstAux (r.ruc :: st.rucSet) rs := by
          unfold dedupFirstAux
          rw [if_neg h]
          cases rs <;> rfl
        obtain ⟨f1, f2, f3, f4⟩ := migrarPaso_fresco_sinFallos st r h
        obtain ⟨g1, g2, g3⟩ := ih (migrarPaso sinFallos st r)
        rw [f4] at g1 g2 g3
        rw [hd]
        refine ⟨?_, ?_, ?_⟩
        · rw [g1, f1]
          simp [List.append_assoc]
        · rw [f2] at g2
          rw [g2]
          simp only [List.length_cons]
          omega
        · rw [f3] at g3
          simp only [List.length_cons]
          omega

/-- C3: in a run where the store rejects nothing, the first staging row
with a given `business_id` is kept (inserted, in first-seen order) and
every subsequent row with the same id is discarded without being inserted,
one discard per duplicate — whatever the other fields contain: the final
store is the first-occurrence deduplication of the input, the inserted
count is its size, and the discarded count is the number of duplicates. -/
theorem migrar_dedup (rows : List StagingRow) :
    (migrarEstado sinFallos rows).db
        = agregarRegistroEspecial sinFallos ((dedupFirst rows).map registroDe)
    ∧ (migrarEstado sinFallos rows).insertados = (dedupFirst rows).length
    ∧ (migrarEstado sinFallos rows).descartados + (dedupFirst rows).length
        = rows.length := by
  obtain ⟨g1, g2, g3⟩ := migrarBucle_sinFallos rows migInicial
  have hfin := migrarFin_sinFallos (migrarBucle sinFallos migInicial rows)
  unfold migrarEstado dedupFirst
  rw [hfin]
  dsimp only
  simp only [migInicial] at g1 g2 g3 ⊢
  simp only [List.nil_append, List.length_nil, Nat.zero_add] at g1 g2 g3
  refine ⟨?_, ?_, ?_⟩
  · rw [g1]
  · rw [g2]
  · rw [g3]

/-! ### Batch fallback (claim C2) and the returned tally (claim C5) -/

theorem migrarBucle_nil (fails : ContribRow → Bool) (st : MigState) :
    migrarBucle fails st [] = st := rfl

theorem migrarFin_vacio (fails : ContribRow → Bool) (st : MigState)
    (h : st.batch = []) : migrarFin fails st = st := by
  unfold migrarFin
  simp [h]

theorem volcarLote_cuentas (fails : ContribRow → Bool) (st : MigState) :
    (volcarLote fails st).insertados
        = st.insertados + st.batch.countP (fun c => !fails c)
    ∧ (volcarLote fails st).descartados = st.descartados + st.batch.countP fails := by
  unfold volcarLote
  split
  · exact ⟨rfl, rfl⟩
  · next h =>
      simp only [List.any_eq_true, not_exists, not_and] at h
      have h0 : st.batch.countP fails = 0 := by
        rw [List.countP_eq_zero]
        intro a ha
        simp [h a ha]
      have h1 := countP_compl fails st.batch
      constructor <;> dsimp only <;> omega

theorem migrarFin_cuentas (fails : ContribRow → Bool) (st : MigState) :
    (migrarFin fails st).insertados
        = st.insertados + st.batch.countP (fun c => !fails c)
    ∧ (migrarFin fails st).descartados = st.descartados + st.batch.countP fails := by
  unfold migrarFin
  split
  · next h =>
      rw [List.isEmpty_iff] at h
      simp [h]
  · exact volcarLote_cuentas fails st

theorem bucle_fin_pequeno (fails : ContribRow → Bool) (rows : List StagingRow) :
    ∀ st : MigState,
      rows.Pairwise (fun a b => a.ruc ≠ b.ruc) →
      (∀ r ∈ rows, st.rucSet.contains r.ruc = false) →
      st.batch.length + rows.length ≤ BATCH_SIZE →
      (migrarFin fails (migrarBucle fails st rows)).insertados
          = st.insertados + (st.batch ++ rows.map registroDe).countP (fun c => !fails c)
      ∧ (migrarFin fails (migrarBucle fails st rows)).descartados
          = st.descartados + (st.batch ++ rows.map registroDe).countP fails := by
  induction rows with
  | nil =>
      intro st _ _ _
      simpa [migrarBucle] using migrarFin_cuentas fails st
  | cons r rs ih =>
      intro st hpw hdisj hlen
      obtain ⟨hr, hrs⟩ := List.pairwise_cons.mp hpw
      have hcr : st.rucSet.contains r.ruc = false := hdisj r (by simp)
      have hnotc : ¬st.rucSet.contains r.ruc = true := by
        rw [hcr]
        exact Bool.false_ne_true
      rw [show migrarBucle fails st (r :: rs)
            = migrarBucle fails (migrarPaso fails st r) rs from rfl]
      unfold migrarPaso
      rw [if_neg hnotc]
      dsimp only
      by_cases hb : BATCH_SIZE ≤ (st.batch ++ [registroDe r]).length
      · have hrs0 : rs = [] := by
          simp only [List.length_cons, List.length_append, List.length_nil] at hlen hb
          have : rs.length = 0 := by omega
          exact List.length_eq_zero.mp this
        subst hrs0
        rw [if_pos hb, migrarBucle_nil,
            migrarFin_vacio fails _ (volcarLote_cuenta fails _).2.1]
        obtain ⟨v1, v2⟩ := volcarLote_cuentas fails
          { st with rucSet := r.ruc :: st.rucSet, batch := st.batch ++ [registroDe r] }
        dsimp only at v1 v2
        simp only [List.map_cons, List.map_nil]
        exact ⟨v1, v2⟩
      · rw [if_neg hb]
        have hdisj2 : ∀ x ∈ rs, (r.ruc :: st.rucSet).contains x.ruc = false := by
          intro x hx
          have hne : x.ruc ≠ r.ruc := (hr x hx).symm
          have hold := hdisj x (by simp [hx])
          have hbeq : (x.ruc == r.ruc) = false := beq_eq_false_iff_ne.mpr hne
          rw [List.contains_cons, hbeq, hold]
          rfl
        have hlen2 : (st.batch ++ [registroDe r]).length + rs.length ≤ BATCH_SIZE := by
          simp only [List.length_append, List.length_cons, List.length_nil] at hlen ⊢
          omega
        obtain ⟨g1, g2⟩ := ih { st with rucSet := r.ruc :: st.rucSet,
                                        batch := st.batch ++ [registroDe r] } hrs hdisj2 hlen2
        dsimp only at g1 g2
        simp only [List.append_assoc, List.singleton_append, List.map_cons] at g1 g2
        exact ⟨g1, g2⟩

/-- C2: when a batch contains exactly one row the store rejects and the
rest are accepted (distinct business ids, the whole run fitting in one
batch — full or final partial), the bulk insert fails, the fallback
retries row by row, and the final tally is `inserted = N`, `discarded = 1`
rather than `N + 1` discarded. -/
theorem migrar_fallback_lote (fails : ContribRow → Bool) (rows : List StagingRow)
    (hnd : rows.Pairwise (fun a b => a.ruc ≠ b.ruc))
    (hlen : rows.length ≤ BATCH_SIZE)
    (hone : (rows.map registroDe).countP fails = 1) :
    (migrarEstado fails rows).insertados = rows.length - 1
    ∧ (migrarEstado fails rows).descartados = 1 := by
  have e1 : migInicial.insertados = 0 := rfl
  have e2 : migInicial.descartados = 0 := rfl
  have e3 : migInicial.batch = ([] : List ContribRow) := rfl
  obtain ⟨h1, h2⟩ := bucle_fin_pequeno fails rows migInicial hnd
    (fun r _ => rfl) (by rw [e3]; simpa using hlen)
  have hc := countP_compl fails (rows.map registroDe)
  have hlenm : (rows.map registroDe).length = rows.length := List.length_map _ _
  unfold migrarEstado
  dsimp only
  constructor
  · rw [h1, e1, e3, List.nil_append]
    omega
  · rw [h2, e2, e3, List.nil_append]
    omega

/-- A well-formed staging row with the given `ruc`, used as concrete
input. -/
def filaPrueba (n : Int) : StagingRow :=
  { ruc := n, ciiu := some "12345", tpoemp := some "A", tamano := some "C",
    ubigeo := some "CHIMBOTE", estado := some "ACTIVO", flag22 := some "HABIDO",
    sexo := some "HOMBRE", edad := some 30, deuda := some 5, condicion := 1 }

/-- A store that rejects exactly the row with `ruc = 20000`. -/
def falloEnRuc20000 : ContribRow → Bool := fun c => c.ruc == 20000

/-- C2 witness: one accepted row plus one rejected row in a single batch
gives one inserted and one discarded. -/
theorem migrar_fallback_lote_witness :
    (migrarEstado falloEnRuc20000 [filaPrueba 10000, filaPrueba 20000]).insertados = 1
    ∧ (migrarEstado falloEnRuc20000 [filaPrueba 10000, filaPrueba 20000]).descartados = 1 := by
  have h := migrar_fallback_lote falloEnRuc20000 [filaPrueba 10000, filaPrueba 20000]
    (by decide) (by decide) (by decide)
  simpa using h

/-- C5 counterexample: two runs whose returned results coincide while
their discarded tallies differ — the value the Migration Engine returns
cannot be the `(inserted, discarded)` tally, because it carries no
discarded information. -/
theorem migrar_retorno_contraejemplo :
    migrar_staging_a_contribuyente sinFallos [filaPrueba 10000]
        = migrar_staging_a_contribuyente sinFallos [filaPrueba 10000, filaPrueba 10000]
    ∧ (migrarEstado sinFallos [filaPrueba 10000]).descartados
        ≠ (migrarEstado sinFallos [filaPrueba 10000, filaPrueba 10000]).descartados := by
  decide

/-- C5 (amended): the Migration Engine returns only the final inserted
count (`return insertados`); the discarded tally is logged but not part of
the result, and together with the returned count it accounts for every
filtered staging row. -/
theorem migrar_retorno (fails : ContribRow → Bool) (rows : List StagingRow) :
    migrar_staging_a_contribuyente fails rows = (migrarEstado fails rows).insertados
    ∧ migrar_staging_a_contribuyente fails rows
        + (migrarEstado fails rows).descartados = rows.length := by
  refine ⟨rfl, ?_⟩
  unfold migrar_staging_a_contribuyente
  exact migrar_cuenta_aux fails rows

/-! ### Orchestrator (`main`, with `check_table_has_data`) -/

/-- `check_table_has_data` from `db_connection.py`: the row count of the
table is compared against `min_rows` (`count >= min_rows`). -/
def check_table_has_data (rowCount : Nat) (min_rows : Nat) : Bool :=
  decide (min_rows ≤ rowCount)

/-- The `WHERE` filter of the staging `SELECT` in
`migrar_staging_a_contribuyente`: sane `ruc` and all six dimension
columns non-null. -/
def filtroStaging (r : StagingRow) : Bool :=
  decide (10000 ≤ r.ruc) && r.ciiu.isSome && r.tpoemp.isSome && r.tamano.isSome
    && r.ubigeo.isSome && r.estado.isSome && r.flag22.isSome

/-- The database state the pipeline touches: the staging table and the
canonical `CONTRIBUYENTE` table.  Catalog tables are not inspected by any
statement below, so they are tracked only through the stage flags. -/
structure DBState where
  staging : List StagingRow
  contribuyente : List ContribRow
deriving DecidableEq

/-- Result of one `main` run: the final database state plus which stages
executed (the summary report always runs). -/
structure PipelineResult where
  state : DBState
  ranStaging : Bool
  ranCatalogos : Bool
  ranMigracion : Bool
  ranReporte : Bool

/-- One run of `main` over a fixed source extract: if `CONTRIBUYENTE`
already holds at least 100 rows the load stages are skipped entirely;
otherwise the staging table is cleared and reloaded from the extract, the
catalogs are populated, and the filtered staging rows are migrated. -/
def runPipeline (fails : ContribRow → Bool) (csv : List RawRow) (s : DBState) :
    PipelineResult :=
  if check_table_has_data s.contribuyente.length 100 then
    { state := s, ranStaging := false, ranCatalogos := false,
      ranMigracion := false, ranReporte := true }
  else
    { state := { staging := (cargar_csv_a_staging csv).staging,
                 contribuyente := (migrarEstado fails
                   (((cargar_csv_a_staging csv).staging).filter filtroStaging)).db },
      ranStaging := true, ranCatalogos := true, ranMigracion := true,
      ranReporte := true }

/-- C1: running the pipeline twice against the same source extract leaves
an identical database state (same canonical rows, hence same row count and
field values): either the second run's guard sees the populated store and
skips the load stages unchanged, or the clear-then-rebuild recomputes the
very same state from the same extract. -/
theorem pipeline_idempotente (fails : ContribRow → Bool) (csv : List RawRow)
    (s : DBState) :
    (runPipeline fails csv (runPipeline fails csv s).state).state
        = (runPipeline fails csv s).state
    ∧ (100 ≤ (runPipeline fails csv s).state.contribuyente.length →
        (runPipeline fails csv (runPipeline fails csv s).state).ranStaging = false
        ∧ (runPipeline fails csv (runPipeline fails csv s).state).ranCatalogos = false
        ∧ (runPipeline fails csv (runPipeline fails csv s).state).ranMigracion = false) := by
  by_cases h1 : check_table_has_data s.contribuyente.length 100 = true
  · have hs : runPipeline fails csv s
        = { state := s, ranStaging := false, ranCatalogos := false,
            ranMigracion := false, ranReporte := true } := by
      unfold runPipeline
      rw [if_pos h1]
    rw [hs]
    dsimp only
    constructor
    · show (runPipeline fails csv s).state = s
      unfold runPipeline
      rw [if_pos h1]
    · intro _
      show (runPipeline fails csv s).ranStaging = false
          ∧ (runPipeline fails csv s).ranCatalogos = false
          ∧ (runPipeline fails csv s).ranMigracion = false
      unfold runPipeline
      rw [if_pos h1]
      exact ⟨rfl, rfl, rfl⟩
  · have hs : runPipeline fails csv s
        = { state := { staging := (cargar_csv_a_staging csv).staging,
                       contribuyente := (migrarEstado fails
                         (((cargar_csv_a_staging csv).staging).filter filtroStaging)).db },
            ranStaging := true, ranCatalogos := true, ranMigracion := true,
            ranReporte := true } := by
      unfold runPipeline
      rw [if_neg h1]
    rw [hs]
    dsimp only
    unfold runPipeline
    split
    · exact ⟨rfl, fun _ => ⟨rfl, rfl, rfl⟩⟩
    · next h2 =>
        refine ⟨rfl, fun hge => absurd ?_ h2⟩
        unfold check_table_has_data
        exact decide_eq_true hge

/-- C9: when the canonical store already holds at least the 100-row
threshold at the initial check, the Staging Reader, Catalog Resolver and
Migration Engine stages are all skipped (the database state is untouched)
while the reporting stage still runs. -/
theorem pipeline_reentrada (fails : ContribRow → Bool) (csv : List RawRow)
    (s : DBState) (h : 100 ≤ s.contribuyente.length) :
    (runPipeline fails csv s).ranStaging = false
    ∧ (runPipeline fails csv s).ranCatalogos = false
    ∧ (runPipeline fails csv s).ranMigracion = false
    ∧ (runPipeline fails csv s).ranReporte = true
    ∧ (runPipeline fails csv s).state = s := by
  have hc : check_table_has_data s.contribuyente.length 100 = true := decide_eq_true h
  unfold runPipeline
  rw [if_pos hc]
  exact ⟨rfl, rfl, rfl, rfl, rfl⟩

/-- A database state whose canonical store already holds 100 rows. -/
def estadoPoblado : DBState :=
  { staging := [], contribuyente := List.replicate 100 registroEspecial }

/-- C9 witness: with 100 canonical rows the load stages are skipped and
reporting still runs. -/
theorem pipeline_reentrada_witness :
    (runPipeline sinFallos [] estadoPoblado).ranStaging = false
    ∧ (runPipeline sinFallos [] estadoPoblado).ranCatalogos = false
    ∧ (runPipeline sinFallos [] estadoPoblado).ranMigracion = false
    ∧ (runPipeline sinFallos [] estadoPoblado).ranReporte = true
    ∧ (runPipeline sinFallos [] estadoPoblado).state = estadoPoblado :=
  pipeline_reentrada sinFallos [] estadoPoblado
    (by simp [estadoPoblado])

/-- C1 witness: the idempotence equation and the skipped second-run load
stages at a concrete populated state. -/
theorem pipeline_idempotente_witness :
    (runPipeline sinFallos [] (runPipeline sinFallos [] estadoPoblado).state).state
        = (runPipeline sinFallos [] estadoPoblado).state
    ∧ (runPipeline sinFallos [] (runPipeline sinFallos [] estadoPoblado).state).ranStaging
        = false := by
  obtain ⟨h1, h2⟩ := pipeline_idempotente sinFallos [] estadoPoblado
  refine ⟨h1, (h2 ?_).1⟩
  have hstate : (runPipeline sinFallos [] estadoPoblado).state = estadoPoblado := by
    unfold runPipeline
    rw [if_pos (by simp [check_table_has_data, estadoPoblado])]
  rw [hstate]
  simp [estadoPoblado]

end Favisa
